import Mathlib

/-!
Verification of the header interceptor of the static-file server
(CustomHandler.send_header in server.py) and of its bootstrap constants.

The interceptor is a pure function of the header pair (keyword, value):
when the lowercased keyword is content-type and the value starts with
text/ and does not contain the substring charset=, the suffix
; charset=utf-8 is appended to the value; otherwise both components pass
through unchanged to the underlying send_header.
-/

namespace Server

/-- Whether pat occurs as a contiguous sublist of the second list; this
embeds the Python substring test (pat in s) on strings viewed as
character lists. -/
def containsSub (pat : List Char) : List Char → Bool
  | [] => pat.isEmpty
  | c :: t => pat.isPrefixOf (c :: t) || containsSub pat t

/-- Embeds the Python call s.startswith(p) on the underlying character
lists. -/
def strStartsWith (s p : String) : Bool :=
  p.data.isPrefixOf s.data

/-- Embeds the Python membership test (p in s): a case-sensitive
substring check. -/
def strContains (s p : String) : Bool :=
  containsSub p.data s.data

/-- Embeds the Python call s.lower() as a per-character lowering of the
underlying character list (exact for the ASCII header names involved). -/
def strLower (s : String) : String :=
  ⟨s.data.map Char.toLower⟩

/-- The value rewrite performed by CustomHandler.send_header before it
delegates to the superclass: appends ; charset=utf-8 to charset-less
text/ Content-Type values, and leaves every other value alone. -/
def sendHeaderValue (keyword value : String) : String :=
  if strLower keyword = "content-type" ∧ strStartsWith value "text/" = true then
    if strContains value "charset=" = true then value
    else value ++ "; charset=utf-8"
  else value

/-- The full pair (keyword, value) handed to the superclass send_header:
the keyword always passes through untouched, the value goes through
sendHeaderValue. -/
def sendHeader (keyword value : String) : String × String :=
  (keyword, sendHeaderValue keyword value)

/-- A sequence of header writes on one response: each call is processed
independently by sendHeader, with no state carried between calls. -/
def processCalls (calls : List (String × String)) : List (String × String) :=
  calls.map (fun p => sendHeader p.1 p.2)

/-- The configured port constant (PORT = 8000 in server.py). -/
def PORT : Nat := 8000

/-- The lines the bootstrap prints to standard output before serving:
exactly one, from the template Serving at port PORT. -/
def startupLines : List String := ["Serving at port " ++ toString PORT]

/-- A list that has p as a leading segment still has it after appending
more elements on the right. -/
theorem isPrefixOf_append_of (p l m : List Char) (h : p.isPrefixOf l = true) :
    p.isPrefixOf (l ++ m) = true := by
  induction p generalizing l with
  | nil => simp [List.isPrefixOf]
  | cons a as ih =>
    cases l with
    | nil => simp [List.isPrefixOf] at h
    | cons b bs =>
      simp only [List.cons_append, List.isPrefixOf, Bool.and_eq_true] at h ⊢
      exact ⟨h.1, ih bs h.2⟩

/-- A substring of the right part of an appended list is a substring of
the whole. -/
theorem containsSub_append_left (p l m : List Char) (h : containsSub p m = true) :
    containsSub p (l ++ m) = true := by
  induction l with
  | nil => simpa using h
  | cons c t ih =>
    simp only [List.cons_append, containsSub, Bool.or_eq_true]
    exact Or.inr ih

/-- Appending on the right preserves strStartsWith. -/
theorem strStartsWith_append (v w p : String) (h : strStartsWith v p = true) :
    strStartsWith (v ++ w) p = true := by
  unfold strStartsWith at h ⊢
  rw [String.data_append]
  exact isPrefixOf_append_of _ _ _ h

/-- A substring of the appended suffix is a substring of the whole
string. -/
theorem strContains_append_right (v w p : String) (h : strContains w p = true) :
    strContains (v ++ w) p = true := by
  unfold strContains at h ⊢
  rw [String.data_append]
  exact containsSub_append_left _ _ _ h

/-- The pair emitted for the call at a given position in a call sequence
is the pure sendHeader image of that call, wherever it sits. -/
theorem processCalls_at (pre post : List (String × String)) (k v : String) :
    (processCalls (pre ++ (k, v) :: post))[pre.length]? = some (sendHeader k v) := by
  induction pre with
  | nil => simp [processCalls]
  | cons a t ih =>
    simpa [processCalls, List.length_cons] using ih

end Server

open Server

/-- C1: for a header named Content-Type whose value starts with text/ and
does not contain charset=, the emitted value is the input value with
; charset=utf-8 appended. -/
theorem contentType_text_noCharset_appends (v : String)
    (h1 : strStartsWith v "text/" = true)
    (h2 : strContains v "charset=" = false) :
    sendHeaderValue "Content-Type" v = v ++ "; charset=utf-8" := by
  have hk : strLower "Content-Type" = "content-type" := by decide
  simp [sendHeaderValue, hk, h1, h2]

/-- Witness for C1 at the concrete value text/html. -/
theorem contentType_text_noCharset_appends_check :
    sendHeaderValue "Content-Type" "text/html" = "text/html" ++ "; charset=utf-8" :=
  contentType_text_noCharset_appends "text/html" (by decide) (by decide)

/-- C2: a Content-Type value that already contains the substring
charset= is emitted unchanged, whether or not it starts with text/. -/
theorem contentType_charset_unchanged (v : String)
    (h : strContains v "charset=" = true) :
    sendHeaderValue "Content-Type" v = v := by
  unfold sendHeaderValue
  split
  · simp [h]
  · rfl

/-- Witness for C2 at the concrete value text/html; charset=utf-8. -/
theorem contentType_charset_unchanged_check :
    sendHeaderValue "Content-Type" "text/html; charset=utf-8" =
      "text/html; charset=utf-8" :=
  contentType_charset_unchanged "text/html; charset=utf-8" (by decide)

/-- C3: a Content-Type value that does not start with text/ is emitted
unchanged. -/
theorem contentType_nonText_unchanged (v : String)
    (h : strStartsWith v "text/" = false) :
    sendHeaderValue "Content-Type" v = v := by
  simp [sendHeaderValue, h]

/-- Witness for C3 at the concrete value application/json. -/
theorem contentType_nonText_unchanged_check :
    sendHeaderValue "Content-Type" "application/json" = "application/json" :=
  contentType_nonText_unchanged "application/json" (by decide)

/-- C4: a header whose name does not lowercase to content-type is
emitted with name and value both unchanged, for every value. -/
theorem nonContentType_passthrough (k v : String)
    (h : strLower k ≠ "content-type") :
    sendHeader k v = (k, v) := by
  simp [sendHeader, sendHeaderValue, h]

/-- Witness for C4 at the concrete header X-Custom with a text/ value
lacking charset=. -/
theorem nonContentType_passthrough_check :
    sendHeader "X-Custom" "text/html" = ("X-Custom", "text/html") :=
  nonContentType_passthrough "X-Custom" "text/html" (by decide)

/-- C5: the name match is case-insensitive: any name whose lowercase
form is content-type triggers the same append as the canonical
spelling. -/
theorem contentType_caseInsensitive (k v : String)
    (hk : strLower k = "content-type")
    (h1 : strStartsWith v "text/" = true)
    (h2 : strContains v "charset=" = false) :
    sendHeaderValue k v = v ++ "; charset=utf-8" := by
  simp [sendHeaderValue, hk, h1, h2]

/-- Witness for C5 at the concrete header name CONTENT-TYPE. -/
theorem contentType_caseInsensitive_check :
    sendHeaderValue "CONTENT-TYPE" "text/plain" = "text/plain" ++ "; charset=utf-8" :=
  contentType_caseInsensitive "CONTENT-TYPE" "text/plain" (by decide) (by decide) (by decide)

/-- C6: the charset test is case-sensitive: a text/ value containing
Charset= but not the lowercase charset= still gets the append. -/
theorem mixedCase_charset_still_appends (v : String)
    (h1 : strStartsWith v "text/" = true)
    (_hmc : strContains v "Charset=" = true)
    (h2 : strContains v "charset=" = false) :
    sendHeaderValue "Content-Type" v = v ++ "; charset=utf-8" := by
  have hk : strLower "Content-Type" = "content-type" := by decide
  simp [sendHeaderValue, hk, h1, h2]

/-- Witness for C6 at the concrete value text/html; Charset=UTF-8. -/
theorem mixedCase_charset_still_appends_check :
    sendHeaderValue "Content-Type" "text/html; Charset=UTF-8" =
      "text/html; Charset=UTF-8" ++ "; charset=utf-8" :=
  mixedCase_charset_still_appends "text/html; Charset=UTF-8"
    (by decide) (by decide) (by decide)

/-- C7: the check is pure and stateless: the pair emitted for a call
(k, v) is some (sendHeader k v) regardless of which calls precede or
follow it, so two occurrences of the same arguments in any two call
sequences produce identical output. -/
theorem header_check_stateless (pre post pre2 post2 : List (String × String))
    (k v : String) :
    (processCalls (pre ++ (k, v) :: post))[pre.length]? = some (sendHeader k v) ∧
    (processCalls (pre ++ (k, v) :: post))[pre.length]? =
      (processCalls (pre2 ++ (k, v) :: post2))[pre2.length]? := by
  refine ⟨processCalls_at pre post k v, ?_⟩
  rw [processCalls_at pre post k v, processCalls_at pre2 post2 k v]

/-- C8: the configured port constant equals 8000 and the bootstrap
prints exactly one status line, Serving at port 8000. -/
theorem port_and_startup_line :
    PORT = 8000 ∧ startupLines = ["Serving at port 8000"] := by
  exact ⟨rfl, by decide⟩

/-- C9: the value rewrite is idempotent: applying it to its own output
leaves the output unchanged, because the appended suffix itself contains
the substring charset=. -/
theorem sendHeaderValue_idem (k v : String) :
    sendHeaderValue k (sendHeaderValue k v) = sendHeaderValue k v := by
  by_cases hk : strLower k = "content-type"
  · by_cases hs : strStartsWith v "text/" = true
    · by_cases hc : strContains v "charset=" = true
      · simp [sendHeaderValue, hk, hs, hc]
      · have h1 : sendHeaderValue k v = v ++ "; charset=utf-8" := by
          simp [sendHeaderValue, hk, hs, hc]
        have hs2 : strStartsWith (v ++ "; charset=utf-8") "text/" = true :=
          strStartsWith_append _ _ _ hs
        have hc2 : strContains (v ++ "; charset=utf-8") "charset=" = true :=
          strContains_append_right _ _ _ (by decide)
        rw [h1]
        simp [sendHeaderValue, hk, hs2, hc2]
    · simp [sendHeaderValue, hk, hs]
  · simp [sendHeaderValue, hk]

/-- C10: for every header pair the emitted name equals the input name,
and the emitted value is either exactly the input value or the input
value followed by ; charset=utf-8. -/
theorem sendHeader_shape (k v : String) :
    (sendHeader k v).1 = k ∧
    ((sendHeader k v).2 = v ∨ (sendHeader k v).2 = v ++ "; charset=utf-8") := by
  refine ⟨rfl, ?_⟩
  unfold sendHeader sendHeaderValue
  split
  · split
    · exact Or.inl rfl
    · exact Or.inr rfl
  · exact Or.inl rfl
